import Mathlib

/-!
Verification of the talespin client against its specification.

The definitions below are shallow embeddings of the frontend code:
`src/routes/game/[roomCode]/Voting.svelte` (vote selection and submission),
`src/routes/game/[roomCode]/Joining.svelte` (start-game gating),
`src/routes/game/[roomCode]/SidebarOptions.svelte` (settings handlers),
`src/lib/gameServer.ts` (WebSocket send queue and production webhook),
and the game-page controller (rejoin handling).  JavaScript numbers are
modelled as `Int` where the code can produce negative values and as
`Nat` for list lengths; `Array.prototype` operations become their
`List` counterparts.
-/

namespace Talespin

/-- JavaScript `String.prototype.includes`: substring test. -/
def jsIncludes (s sub : String) : Bool :=
  decide (sub.data <:+: s.data)

/-! ## Voting.svelte: vote selection state -/

/-- Definition `effectiveVotesPerGuesser` from `Voting.svelte` line 52:
`Math.max(1, Math.min(votesPerGuesser, Math.max(votesPerGuesserMax, 1)))`. -/
def effectiveVotesPerGuesser (votesPerGuesser votesPerGuesserMax : Int) : Int :=
  max 1 (min votesPerGuesser (max votesPerGuesserMax 1))

/-- The reactive block of `Voting.svelte` lines 72-79: keep only selected
votes that are on the table (`displayImages`) and not disabled, then the
block of lines 80-82: if the list is longer than the effective
votes-per-guesser, keep only the most recent entries
(`slice(length - effectiveVotesPerGuesser)`). -/
def normalizeVotes (displayImages disabledCards : List String) (evpg : Nat)
    (selectedVotes : List String) : List String :=
  let allowed := displayImages.filter (fun image => !disabledCards.contains image)
  let filtered := selectedVotes.filter (fun card => allowed.contains card)
  if filtered.length > evpg then filtered.drop (filtered.length - evpg) else filtered

/-- Function `cycleCardVote` from `Voting.svelte` lines 101-119.  The JS `while`
loop repeatedly `shift`s the oldest entry until the length bound holds,
which is `drop (length - evpg)`. -/
def cycleCardVote (isVoter : Bool) (disabledCards : List String) (evpg : Nat)
    (selectedVotes : List String) (card : String) : List String :=
  if !isVoter || disabledCards.contains card then selectedVotes
  else
    let currentCount := selectedVotes.count card
    if currentCount ≥ 2 then selectedVotes.filter (fun value => value ≠ card)
    else if currentCount = 1 ∧ evpg = 1 then selectedVotes.filter (fun value => value ≠ card)
    else
      let nextVotes := selectedVotes ++ [card]
      nextVotes.drop (nextVotes.length - evpg)

/-- The props and local state of the `Voting.svelte` component that the
vote-selection logic reads. -/
structure VotingState where
  displayImages : List String
  disabledCards : List String
  votesPerGuesser : Int
  votesPerGuesserMax : Int
  isVoter : Bool
  selectedVotes : List String
deriving Repr, DecidableEq

/-- The effective votes-per-guesser of a component state, as a list length. -/
def VotingState.evpg (s : VotingState) : Nat :=
  (effectiveVotesPerGuesser s.votesPerGuesser s.votesPerGuesserMax).toNat

/-- Svelte reruns the reactive statements after every assignment to
`selectedVotes` or to the props they read. -/
def applyReactive (s : VotingState) : VotingState :=
  { s with selectedVotes :=
      normalizeVotes s.displayImages s.disabledCards s.evpg s.selectedVotes }

/-- Events the component reacts to: a click on a table card, or a
prop update from a fresh `RoomState` / `BeginVoting` message. -/
inductive VotingEvent where
  | click (card : String)
  | setProps (displayImages disabledCards : List String)
      (votesPerGuesser votesPerGuesserMax : Int) (isVoter : Bool)
deriving Repr, DecidableEq

/-- One step of the component: perform the handler or prop update, then
rerun the reactive statements. -/
def votingStep (s : VotingState) (e : VotingEvent) : VotingState :=
  match e with
  | .click card =>
      let sv := cycleCardVote s.isVoter s.disabledCards s.evpg s.selectedVotes card
      applyReactive { s with selectedVotes := sv }
  | .setProps d dis v vm iv =>
      applyReactive
        { displayImages := d
          disabledCards := dis
          votesPerGuesser := v
          votesPerGuesserMax := vm
          isVoter := iv
          selectedVotes := s.selectedVotes }

/-- Component initialisation: `selectedVotes = []` and the reactive
statements run once. -/
def votingInit (displayImages disabledCards : List String)
    (votesPerGuesser votesPerGuesserMax : Int) (isVoter : Bool) : VotingState :=
  applyReactive
    { displayImages := displayImages
      disabledCards := disabledCards
      votesPerGuesser := votesPerGuesser
      votesPerGuesserMax := votesPerGuesserMax
      isVoter := isVoter
      selectedVotes := [] }

/-- Run the component over a sequence of events. -/
def votingRun (s : VotingState) (evs : List VotingEvent) : VotingState :=
  evs.foldl votingStep s

/-- Definition `canSubmit` from `Voting.svelte` lines 70-71. -/
def canSubmit (s : VotingState) : Bool :=
  s.isVoter && decide (0 < effectiveVotesPerGuesser s.votesPerGuesser s.votesPerGuesserMax)
    && decide ((s.selectedVotes.length : Int)
        = effectiveVotesPerGuesser s.votesPerGuesser s.votesPerGuesserMax)

/-- Function `submitVotes` from `Voting.svelte` lines 121-137: the `SubmitVotes`
command payload, or `none` when the guard blocks submission. -/
def submitVotes (s : VotingState) : Option (List String) :=
  if canSubmit s then some s.selectedVotes else none

/-- Definition `guesserCount` from `Voting.svelte` line 50:
`Math.max(0, Object.keys(players).length - 1)`. -/
def guesserCount (numPlayers : Nat) : Int :=
  max 0 ((numPlayers : Int) - 1)

/-- Definition `effectiveLossThreshold` from `Voting.svelte` line 51:
`Math.max(0, guesserCount - storytellerLossComplement)`. -/
def effectiveLossThreshold (guessers storytellerLossComplement : Int) : Int :=
  max 0 (guessers - storytellerLossComplement)

/-! ## Joining.svelte: start-game gating -/

/-- Definition `canStart` from `Joining.svelte` line 23:
`roomStateLoaded && isModerator && playerEntries.length >= 3`, where
`isModerator = moderatorSet.has(name)` (line 22) and `playerEntries =
Object.entries(players)` (line 19). -/
def canStart (roomStateLoaded : Bool) (moderators : List String) (name : String)
    (playerNames : List String) : Bool :=
  roomStateLoaded && moderators.contains name && decide (playerNames.length ≥ 3)

/-! ## SidebarOptions.svelte: cards-per-hand setting -/

/-- Room stages as carried in the `stage` prop strings. -/
inductive Stage where
  | Joining | ActiveChooses | PlayersChoose | Voting | Results | Paused | End
deriving Repr, DecidableEq

/-- Outcome of a settings `change` handler: reset the field to the
current value, send the changed value to the server, or do nothing
(value equal to the current one). -/
inductive FieldOutcome where
  | resetField
  | sendCommand (value : Int)
  | noop
deriving Repr, DecidableEq

/-- Handler `updateCardsPerHand` from `SidebarOptions.svelte` lines 127-137.
`parsed` is `Number(input.value)` abstracted to `some n` when
`Number.isInteger(parsed)` holds and `none` otherwise (`NaN` or a
non-integer number). -/
def updateCardsPerHand (parsed : Option Int) (minV maxV current : Int) : FieldOutcome :=
  match parsed with
  | none => .resetField
  | some p =>
      if p < minV || p > maxV then .resetField
      else if p ≠ current then .sendCommand p
      else .noop

/-- Definition `canChangeCardsPerHand` from `SidebarOptions.svelte` line 41:
`stage === 'ActiveChooses'`. -/
def canChangeCardsPerHand (stage : Stage) : Bool :=
  stage = Stage.ActiveChooses

/-- The `SetCardsPerHand` command emitted by a change event on the
cards-per-hand input.  The input carries
`disabled={!isModerator || !canChangeCardsPerHand}` (line 342), and a
disabled input fires no change events, so the handler only runs when
both hold. -/
def cardsPerHandCommand (stage : Stage) (isModerator : Bool) (parsed : Option Int)
    (minV maxV current : Int) : Option Int :=
  if !(isModerator && canChangeCardsPerHand stage) then none
  else
    match updateCardsPerHand parsed minV maxV current with
    | .sendCommand v => some v
    | _ => none

/-! ## gameServer.ts: send queue -/

/-- State of a `GameServer`'s socket and message queue: whether the
current WebSocket is open (`readyState === 1`), the pending
`message_queue`, and the messages transmitted on a socket so far. -/
structure GameServerState where
  wsOpen : Bool
  messageQueue : List String
  transmitted : List String
deriving Repr, DecidableEq

/-- A fresh `GameServer`: the WebSocket is still connecting, the queue
is empty, nothing transmitted. -/
def gameServerInit : GameServerState :=
  { wsOpen := false, messageQueue := [], transmitted := [] }

/-- Events on a session: `send` is a call to `GameServer.send`
(lines 67-74), `socketOpen` the `onopen` callback (lines 43-51),
`socketClose` the `onclose` callback (lines 58-64), which swaps in a
new, not-yet-open WebSocket and keeps the queue. -/
inductive GsEvent where
  | send (msg : String)
  | socketOpen
  | socketClose
deriving Repr, DecidableEq

/-- One step of the send/queue protocol in `gameServer.ts`. -/
def gsStep (s : GameServerState) (e : GsEvent) : GameServerState :=
  match e with
  | .send msg =>
      if s.wsOpen then { s with transmitted := s.transmitted ++ [msg] }
      else { s with messageQueue := s.messageQueue ++ [msg] }
  | .socketOpen =>
      { wsOpen := true, messageQueue := [],
        transmitted := s.transmitted ++ s.messageQueue }
  | .socketClose =>
      { s with wsOpen := false }

/-- Run a `GameServer` over a sequence of events. -/
def gsRun (s : GameServerState) (evs : List GsEvent) : GameServerState :=
  evs.foldl gsStep s

/-- The messages issued by `send` calls in an event sequence, in order. -/
def gsSends (evs : List GsEvent) : List String :=
  evs.foldr (fun e acc => match e with | .send msg => msg :: acc | _ => acc) []

/-! ## gameServer.ts: production webhook -/

/-- The hard-coded webhook URL `wh` from `gameServer.ts` lines 16-17. -/
def discordWebhookUrl : String :=
  "https://discord.com/api/webhooks/1001239610942312579/RRMUMZq0h3_OMSPcpe5PkTIuKvxj6thv1qqjbcYPNuB6fZ_oUxiYgZLZTd_Smiwh7Umc"

/-- An outgoing HTTP request issued by the client. -/
structure HttpRequest where
  url : String
  method : String
  body : String
deriving Repr, DecidableEq

/-- Flag `production` from `gameServer.ts` line 2:
`browser ? window.location.href.includes('talespin.live') : false`. -/
def production (browser : Bool) (href : String) : Bool :=
  browser && jsIncludes href "talespin.live"

/-- The body `JSON.stringify({content: 'hit on ' + pathname})` built in
the `GameServer` constructor (lines 35-37). -/
def webhookBody (path : String) : String :=
  "\x7b\"content\":\"hit on " ++ path ++ "\"\x7d"

/-- The HTTP requests issued by the `GameServer` constructor
(lines 25-40): exactly one POST to the webhook when `production` holds,
none otherwise. -/
def constructorRequests (browser : Bool) (href path : String) : List HttpRequest :=
  if production browser href then
    [{ url := discordWebhookUrl, method := "POST", body := webhookBody path }]
  else []

/-! ## Game page controller: rejoin handling -/

/-- The `rejoin` flag of the game page (`+page.svelte` for
`/game/[roomCode]`). -/
structure ClientState where
  rejoin : Bool
deriving Repr, DecidableEq

/-- Events the rejoin logic reacts to: a `RoomState` message, the
WebSocket `onclose` callback, the `Kicked`, `LeftRoom` and
`InvalidRoomId` messages, and component destruction. -/
inductive ClientEvent where
  | roomState
  | wsClose
  | kicked
  | leftRoom
  | invalidRoomId
  | destroy
deriving Repr, DecidableEq

/-- Observable actions of the rejoin logic. -/
inductive ClientAction where
  | newSocket
  | sendJoinRoom (roomId name token : String)
  | closeSocket
  | navigateHome
deriving Repr, DecidableEq

/-- Initial page state: `rejoin = false` until the first `RoomState`. -/
def clientInit : ClientState := { rejoin := false }

/-- One step of the page's rejoin handling:
`RoomState` sets `rejoin = true` (line 450 of the page script);
`onclose` always swaps in a new WebSocket (`gameServer.ts` lines 58-64)
and, if `rejoin` holds, re-sends `JoinRoom` with the captured
`roomCode`, `name` and `token` (lines 400-404 of the page script);
`Kicked`/`LeftRoom` clear `rejoin`, close the socket and navigate home;
`InvalidRoomId` clears `rejoin` and navigates home; `onDestroy` clears
`rejoin` and closes the socket. -/
def clientStep (roomCode name token : String) (s : ClientState) (e : ClientEvent) :
    ClientState × List ClientAction :=
  match e with
  | .roomState => ({ rejoin := true }, [])
  | .wsClose =>
      (s, .newSocket :: (if s.rejoin then [.sendJoinRoom roomCode name token] else []))
  | .kicked => ({ rejoin := false }, [.closeSocket, .navigateHome])
  | .leftRoom => ({ rejoin := false }, [.closeSocket, .navigateHome])
  | .invalidRoomId => ({ rejoin := false }, [.navigateHome])
  | .destroy => ({ rejoin := false }, [.closeSocket])

/-- The page state after a sequence of events. -/
def clientRunState (roomCode name token : String) (s : ClientState)
    (evs : List ClientEvent) : ClientState :=
  evs.foldl (fun st e => (clientStep roomCode name token st e).1) s

/-- All actions the rejoin logic emits over a sequence of events, in
order. -/
def clientActions (roomCode name token : String) (s : ClientState) :
    List ClientEvent → List ClientAction
  | [] => []
  | e :: evs =>
      (clientStep roomCode name token s e).2
        ++ clientActions roomCode name token (clientStep roomCode name token s e).1 evs

/-! ## Round scoring -/

/-- Modelled from the spec: the round-scoring engine lives in the game
server, which is not part of this frontend tree; §4.D.3 of the spec
defines it.  Configuration: `votes_per_guesser`, the storyteller-loss
complement `C`, and the two bonus toggles. -/
structure ScoringConfig where
  votesPerGuesser : Nat
  lossComplement : Nat
  bonusCorrectGuessOnThresholdCorrectLoss : Bool
  bonusDoubleVoteOnThresholdCorrectLoss : Bool
deriving Repr, DecidableEq

/-- Modelled from the spec: one guesser's round data — the number of
their vote tokens landing on the storyteller's clue card, and the number
of vote tokens other players placed on this guesser's nominations. -/
structure GuesserRound where
  rightTokens : Nat
  decoyTokens : Nat
deriving Repr, DecidableEq

/-- Modelled from the spec: `wrong_tokens = votes_per_guesser − right_tokens`. -/
def wrongTokens (cfg : ScoringConfig) (g : GuesserRound) : Nat :=
  cfg.votesPerGuesser - g.rightTokens

/-- Modelled from the spec: `right_guessers` = count of guessers with at
least one right token. -/
def rightGuessers (guessers : List GuesserRound) : Nat :=
  (guessers.filter (fun g => g.rightTokens ≥ 1)).length

/-- Modelled from the spec: `wrong_guessers` = count of guessers with at
least one wrong token. -/
def wrongGuessers (cfg : ScoringConfig) (guessers : List GuesserRound) : Nat :=
  (guessers.filter (fun g => wrongTokens cfg g ≥ 1)).length

/-- Modelled from the spec: loss threshold `T = G − C`, with `G` the
number of guessers who voted this round. -/
def lossThreshold (cfg : ScoringConfig) (guessers : List GuesserRound) : Nat :=
  guessers.length - cfg.lossComplement

/-- Modelled from the spec: a storyteller-loss round holds when
`right_guessers ≥ T` or `wrong_guessers ≥ T`. -/
def isLossRound (cfg : ScoringConfig) (guessers : List GuesserRound) : Bool :=
  rightGuessers guessers ≥ lossThreshold cfg guessers
    || wrongGuessers cfg guessers ≥ lossThreshold cfg guessers

/-- Modelled from the spec: a threshold-correct storyteller-loss round
is one where the loss condition is met via `right_guessers ≥ T`. -/
def isThresholdCorrectLoss (cfg : ScoringConfig) (guessers : List GuesserRound) : Bool :=
  rightGuessers guessers ≥ lossThreshold cfg guessers

/-- Modelled from the spec: storyteller delta — `+0` in a
storyteller-loss round, `+3` otherwise. -/
def storytellerDelta (cfg : ScoringConfig) (guessers : List GuesserRound) : Nat :=
  if isLossRound cfg guessers then 0 else 3

/-- Modelled from the spec: a guesser's base delta — `+2` in a
storyteller-loss round; otherwise `+3` with at least one right token and
`+0` without. -/
def guesserBaseDelta (cfg : ScoringConfig) (guessers : List GuesserRound)
    (g : GuesserRound) : Nat :=
  if isLossRound cfg guessers then 2
  else if g.rightTokens ≥ 1 then 3 else 0

/-- Modelled from the spec: the threshold-correct upgrade — when the
toggle is on, in a threshold-correct loss round a guesser with at least
one right token earns `+3` base instead of `+2`, i.e. one extra point. -/
def thresholdCorrectUpgrade (cfg : ScoringConfig) (guessers : List GuesserRound)
    (g : GuesserRound) : Nat :=
  if cfg.bonusCorrectGuessOnThresholdCorrectLoss
      && isThresholdCorrectLoss cfg guessers && g.rightTokens ≥ 1 then 1 else 0

/-- Modelled from the spec: the double-correct bonus — `+1` for at least
two right tokens, disabled in threshold-correct loss rounds unless the
corresponding toggle is on. -/
def doubleCorrectBonus (cfg : ScoringConfig) (guessers : List GuesserRound)
    (g : GuesserRound) : Nat :=
  if g.rightTokens ≥ 2
      && (!isThresholdCorrectLoss cfg guessers
          || cfg.bonusDoubleVoteOnThresholdCorrectLoss) then 1 else 0

/-- Modelled from the spec: the decoy bonus — `+1` per vote token other
players placed on the guesser's nominations, capped at `+3`. -/
def decoyBonus (g : GuesserRound) : Nat :=
  min 3 g.decoyTokens

/-- Modelled from the spec: a guesser's full round delta. -/
def guesserDelta (cfg : ScoringConfig) (guessers : List GuesserRound)
    (g : GuesserRound) : Nat :=
  guesserBaseDelta cfg guessers g + thresholdCorrectUpgrade cfg guessers g
    + doubleCorrectBonus cfg guessers g + decoyBonus g

/-! ## Theorems -/

/-- C3: during Voting the storyteller-loss threshold equals `G − C`
where `G = guesserCount` (the non-storyteller participants) and `C` is
the configured complement; for `0 ≤ C ≤ G` it is a non-negative
integer. -/
theorem effectiveLossThreshold_eq_sub (numPlayers : Nat) (c : Int)
    (h0 : 0 ≤ c) (h1 : c ≤ guesserCount numPlayers) :
    effectiveLossThreshold (guesserCount numPlayers) c = guesserCount numPlayers - c
      ∧ 0 ≤ effectiveLossThreshold (guesserCount numPlayers) c := by
  have hge : (0 : Int) ≤ guesserCount numPlayers - c := by omega
  constructor
  · exact max_eq_right hge
  · rw [effectiveLossThreshold, max_eq_right hge]; exact hge

/-- Witness for C3: four players, complement 1 gives threshold 2. -/
theorem effectiveLossThreshold_eq_sub_witness :
    effectiveLossThreshold (guesserCount 4) 1 = guesserCount 4 - 1
      ∧ 0 ≤ effectiveLossThreshold (guesserCount 4) 1 :=
  effectiveLossThreshold_eq_sub 4 1 (by decide) (by decide)

/-- C5: with fewer than three players the Start Game action is
disabled; it is enabled exactly when the room state has loaded, the
local user is a moderator and at least three players are present. -/
theorem canStart_spec (roomStateLoaded : Bool) (moderators : List String)
    (name : String) (playerNames : List String) :
    (playerNames.length < 3 →
      canStart roomStateLoaded moderators name playerNames = false)
    ∧ (canStart roomStateLoaded moderators name playerNames = true ↔
        roomStateLoaded = true ∧ moderators.contains name = true
          ∧ 3 ≤ playerNames.length) := by
  constructor
  · intro h
    simp only [canStart, Bool.and_eq_false_iff, decide_eq_false_iff_not]
    right
    omega
  · simp [canStart, and_assoc]

/-- Witness for C5: a lone moderator in a two-player room cannot
start the game. -/
theorem canStart_spec_witness :
    canStart true ["ann"] "ann" ["ann", "bob"] = false :=
  (canStart_spec true ["ann"] "ann" ["ann", "bob"]).1 (by decide)

/-- Characterisation of the `SetCardsPerHand` change handler: it asks
for a command exactly for an integer input inside the advertised range
that differs from the current value. -/
theorem updateCardsPerHand_send_iff (parsed : Option Int) (minV maxV current v : Int) :
    updateCardsPerHand parsed minV maxV current = FieldOutcome.sendCommand v ↔
      parsed = some v ∧ minV ≤ v ∧ v ≤ maxV ∧ v ≠ current := by
  cases parsed with
  | none => simp [updateCardsPerHand]
  | some p =>
      show (if (decide (p < minV) || decide (p > maxV)) = true then FieldOutcome.resetField
        else if p ≠ current then FieldOutcome.sendCommand p else FieldOutcome.noop)
          = FieldOutcome.sendCommand v ↔ _
      by_cases hr : (decide (p < minV) || decide (p > maxV)) = true
      · rw [if_pos hr]
        constructor
        · intro h
          exact absurd h (by simp)
        · rintro ⟨hpv, h1, h2, _⟩
          injection hpv with hpv
          subst hpv
          simp only [Bool.or_eq_true, decide_eq_true_iff] at hr
          omega
      · rw [if_neg hr]
        rw [Bool.not_eq_true] at hr
        simp only [Bool.or_eq_false_iff, decide_eq_false_iff_not] at hr
        by_cases hne : p ≠ current
        · rw [if_pos hne]
          constructor
          · intro h
            injection h with h
            subst h
            exact ⟨rfl, by omega, by omega, hne⟩
          · rintro ⟨hpv, _, _, _⟩
            injection hpv with hpv
            subst hpv
            rfl
        · rw [if_neg hne]
          push_neg at hne
          subst hne
          constructor
          · intro h
            exact absurd h (by simp)
          · rintro ⟨hpv, _, _, hvc⟩
            injection hpv with hpv
            exact absurd hpv.symm hvc

/-- C8: a `SetCardsPerHand` command is produced only during
`ActiveChooses` by a moderator, with an integer value inside the
advertised range that differs from the current value; a non-integer or
out-of-range input resets the field and sends nothing. -/
theorem cardsPerHandCommand_spec (stage : Stage) (isModerator : Bool)
    (parsed : Option Int) (minV maxV current : Int) :
    (∀ v, cardsPerHandCommand stage isModerator parsed minV maxV current = some v →
      stage = Stage.ActiveChooses ∧ isModerator = true ∧ parsed = some v
        ∧ minV ≤ v ∧ v ≤ maxV ∧ v ≠ current)
    ∧ (parsed = none →
        updateCardsPerHand parsed minV maxV current = FieldOutcome.resetField
          ∧ cardsPerHandCommand stage isModerator parsed minV maxV current = none)
    ∧ (∀ p, parsed = some p → (p < minV ∨ maxV < p) →
        updateCardsPerHand parsed minV maxV current = FieldOutcome.resetField
          ∧ cardsPerHandCommand stage isModerator parsed minV maxV current = none) := by
  refine ⟨fun v hv => ?_, fun hnone => ?_, fun p hp hout => ?_⟩
  · unfold cardsPerHandCommand at hv
    split at hv
    · exact absurd hv (by simp)
    next hgate =>
      have hgate' : isModerator = true ∧ stage = Stage.ActiveChooses := by
        have hx : (isModerator && canChangeCardsPerHand stage) = true := by
          by_contra hc
          rw [Bool.not_eq_true] at hc
          exact hgate (by rw [hc]; rfl)
        simp only [Bool.and_eq_true, canChangeCardsPerHand,
          decide_eq_true_iff] at hx
        exact hx
      split at hv
      next w heq =>
        injection hv with hv
        subst hv
        have := (updateCardsPerHand_send_iff parsed minV maxV current w).mp heq
        exact ⟨hgate'.2, hgate'.1, this.1, this.2.1, this.2.2.1, this.2.2.2⟩
      next => exact absurd hv (by simp)
  · subst hnone
    refine ⟨rfl, ?_⟩
    unfold cardsPerHandCommand updateCardsPerHand
    split
    · rfl
    · rfl
  · subst hp
    have hb : (decide (p < minV) || decide (p > maxV)) = true := by
      rcases hout with h | h
      · simp [h]
      · simp [h]
    have hreset : updateCardsPerHand (some p) minV maxV current
        = FieldOutcome.resetField := by
      unfold updateCardsPerHand
      simp [hb]
    refine ⟨hreset, ?_⟩
    unfold cardsPerHandCommand
    rw [hreset]
    split
    · rfl
    · rfl

/-- Witness for C8: a moderator changing cards-per-hand to 8 during
`ActiveChooses` with range 1-12 and current value 6 yields a command,
and the implications of the theorem hold at that input. -/
theorem cardsPerHandCommand_spec_witness :
    Stage.ActiveChooses = Stage.ActiveChooses ∧ true = true
      ∧ (some (8 : Int)) = some 8 ∧ (1 : Int) ≤ 8 ∧ (8 : Int) ≤ 12 ∧ (8 : Int) ≠ 6 :=
  (cardsPerHandCommand_spec Stage.ActiveChooses true (some 8) 1 12 6).1 8 (by decide)

/-- C1: in a storyteller-loss round (`right_guessers ≥ T` or
`wrong_guessers ≥ T` with `T = G − C`) the storyteller's delta is 0 and
every guesser's base delta is +2; otherwise the storyteller's delta is
+3 and a guesser's base delta is +3 with at least one right token, +0
without. -/
theorem scoring_round_deltas (cfg : ScoringConfig) (guessers : List GuesserRound)
    (hc : cfg.lossComplement ≤ guessers.length) :
    (isLossRound cfg guessers = true →
      storytellerDelta cfg guessers = 0
        ∧ ∀ g ∈ guessers, guesserBaseDelta cfg guessers g = 2)
    ∧ (isLossRound cfg guessers = false →
      storytellerDelta cfg guessers = 3
        ∧ ∀ g ∈ guessers,
            guesserBaseDelta cfg guessers g = if g.rightTokens ≥ 1 then 3 else 0) := by
  constructor
  · intro hloss
    refine ⟨?_, fun g _ => ?_⟩
    · simp [storytellerDelta, hloss]
    · simp [guesserBaseDelta, hloss]
  · intro hloss
    refine ⟨?_, fun g _ => ?_⟩
    · simp [storytellerDelta, hloss]
    · simp [guesserBaseDelta, hloss]

/-- Witness for C1: three guessers, complement 0, all three voting the
clue card — a threshold-correct storyteller-loss round (spec scenario
2): storyteller +0 and every guesser base +2. -/
theorem scoring_round_deltas_witness :
    storytellerDelta ⟨1, 0, false, false⟩ [⟨1, 0⟩, ⟨1, 0⟩, ⟨1, 0⟩] = 0
      ∧ ∀ g ∈ [(⟨1, 0⟩ : GuesserRound), ⟨1, 0⟩, ⟨1, 0⟩],
          guesserBaseDelta ⟨1, 0, false, false⟩ [⟨1, 0⟩, ⟨1, 0⟩, ⟨1, 0⟩] g = 2 :=
  (scoring_round_deltas ⟨1, 0, false, false⟩ [⟨1, 0⟩, ⟨1, 0⟩, ⟨1, 0⟩]
    (by decide)).1 (by decide)

/-- C10: when the page URL contains `talespin.live` the `GameServer`
constructor issues exactly one POST to the hard-coded Discord webhook
with a body containing the current page path; for URLs not containing
that host no request is issued. -/
theorem constructorRequests_spec (browser : Bool) (href path : String) :
    (browser = true → jsIncludes href "talespin.live" = true →
      constructorRequests browser href path
          = [{ url := discordWebhookUrl, method := "POST", body := webhookBody path }]
        ∧ jsIncludes (webhookBody path) path = true)
    ∧ (jsIncludes href "talespin.live" = false →
        constructorRequests browser href path = []) := by
  constructor
  · intro hb hin
    constructor
    · simp [constructorRequests, production, hb, hin]
    · rw [jsIncludes, decide_eq_true_iff]
      refine ⟨"\x7b\"content\":\"hit on ".data, "\"\x7d".data, ?_⟩
      show _ = (webhookBody path).data
      rw [webhookBody, String.data_append, String.data_append]
  · intro hin
    simp [constructorRequests, production, hin]

/-- Witness for C10: a production page load posts the webhook once. -/
theorem constructorRequests_spec_witness :
    constructorRequests true "https://talespin.live/game/abcd" "/game/abcd"
        = [{ url := discordWebhookUrl, method := "POST",
             body := webhookBody "/game/abcd" }]
      ∧ jsIncludes (webhookBody "/game/abcd") "/game/abcd" = true :=
  (constructorRequests_spec true "https://talespin.live/game/abcd" "/game/abcd").1
    rfl (by decide)

/-- While the socket is open the queue is empty, and the messages
transmitted so far followed by the queued ones are exactly the issued
messages in issue order. -/
theorem gsRun_order_invariant (evs : List GsEvent) (s : GameServerState)
    (hq : s.wsOpen = true → s.messageQueue = []) :
    (gsRun s evs).transmitted ++ (gsRun s evs).messageQueue
        = s.transmitted ++ s.messageQueue ++ gsSends evs
      ∧ ((gsRun s evs).wsOpen = true → (gsRun s evs).messageQueue = []) := by
  induction evs generalizing s with
  | nil => exact ⟨by simp [gsRun, gsSends], hq⟩
  | cons e evs ih =>
      have hrun : gsRun s (e :: evs) = gsRun (gsStep s e) evs := by
        simp [gsRun]
      rw [hrun]
      have hq' : (gsStep s e).wsOpen = true → (gsStep s e).messageQueue = [] := by
        cases e with
        | send msg =>
            by_cases ho : s.wsOpen = true
            · intro _
              simp [gsStep, ho, hq ho]
            · simp only [gsStep]
              rw [if_neg ho]
              intro hcontra
              exact absurd hcontra ho
        | socketOpen => intro _; rfl
        | socketClose => intro hcontra; simp [gsStep] at hcontra
      obtain ⟨ih1, ih2⟩ := ih (gsStep s e) hq'
      refine ⟨?_, ih2⟩
      rw [ih1]
      cases e with
      | send msg =>
          by_cases ho : s.wsOpen = true
          · simp [gsStep, ho, hq ho, gsSends]
          · rw [Bool.not_eq_true] at ho
            simp [gsStep, ho, gsSends]
      | socketOpen => simp [gsStep, gsSends]
      | socketClose => simp [gsStep, gsSends]

/-- C6: a `send` while the socket is not open appends the message to
the queue and transmits nothing; the `onopen` callback transmits all
queued messages in FIFO order and empties the queue; a `send` while the
socket is open transmits the message immediately; consequently the
transmitted messages followed by the still-queued ones are exactly the
issued messages in the order issued. -/
theorem gameServer_send_fifo :
    (∀ evs m, (gsRun gameServerInit evs).wsOpen = false →
      gsRun gameServerInit (evs ++ [GsEvent.send m])
        = { gsRun gameServerInit evs with
            messageQueue := (gsRun gameServerInit evs).messageQueue ++ [m] })
    ∧ (∀ evs, gsRun gameServerInit (evs ++ [GsEvent.socketOpen])
        = { wsOpen := true, messageQueue := [],
            transmitted := (gsRun gameServerInit evs).transmitted
              ++ (gsRun gameServerInit evs).messageQueue })
    ∧ (∀ evs m, (gsRun gameServerInit evs).wsOpen = true →
      gsRun gameServerInit (evs ++ [GsEvent.send m])
        = { gsRun gameServerInit evs with
            transmitted := (gsRun gameServerInit evs).transmitted ++ [m] })
    ∧ (∀ evs, (gsRun gameServerInit evs).transmitted
        ++ (gsRun gameServerInit evs).messageQueue = gsSends evs) := by
  refine ⟨fun evs m ho => ?_, fun evs => ?_, fun evs m ho => ?_, fun evs => ?_⟩
  · rw [gsRun, List.foldl_append]
    rw [gsRun] at ho
    simp [gsStep, ho, gsRun]
  · rw [gsRun, List.foldl_append]
    simp [gsStep, gsRun]
  · rw [gsRun, List.foldl_append]
    rw [gsRun] at ho
    simp [gsStep, ho, gsRun]
  · have := gsRun_order_invariant evs gameServerInit (by intro h; rfl)
    simpa [gameServerInit] using this.1

/-- Witness for C6: a message sent while connecting is queued and then
flushed on open ahead of nothing else, and a message sent while open
goes out immediately. -/
theorem gameServer_send_fifo_witness :
    gsRun gameServerInit [GsEvent.send "a"]
        = { gsRun gameServerInit [] with
            messageQueue := (gsRun gameServerInit []).messageQueue ++ ["a"] } :=
  gameServer_send_fifo.1 [] "a" rfl

/-- Counterexample for C7 as stated: a WebSocket close that is not
caused by Kicked/LeftRoom/InvalidRoomId/destroy — hence unintended —
but that happens before the first `RoomState` arrives makes the client
open a new socket yet send no `JoinRoom`, because the `rejoin` flag is
still false. -/
theorem client_close_before_roomState_no_join :
    ClientAction.newSocket
        ∈ clientActions "room" "alice" "tok" clientInit [ClientEvent.wsClose]
      ∧ ClientAction.sendJoinRoom "room" "alice" "tok"
        ∉ clientActions "room" "alice" "tok" clientInit [ClientEvent.wsClose] := by
  constructor
  · simp [clientActions, clientStep, clientInit]
  · simp [clientActions, clientStep, clientInit]

/-- C7 (amended): once a `RoomState` has been received (`rejoin` set),
an unintended close opens a new socket and re-sends `JoinRoom` with the
identical room code, name and token; `Kicked`, `LeftRoom` and
`InvalidRoomId` clear the rejoin flag, and from a cleared flag no
`JoinRoom` is emitted by any sequence of events that contains no new
`RoomState`. -/
theorem client_rejoin_spec (roomCode name token : String) (s : ClientState) :
    (s.rejoin = true →
      (clientStep roomCode name token s ClientEvent.wsClose).2
        = [ClientAction.newSocket, ClientAction.sendJoinRoom roomCode name token])
    ∧ ((clientStep roomCode name token s ClientEvent.kicked).1.rejoin = false
        ∧ (clientStep roomCode name token s ClientEvent.leftRoom).1.rejoin = false
        ∧ (clientStep roomCode name token s ClientEvent.invalidRoomId).1.rejoin = false)
    ∧ (∀ evs, s.rejoin = false → ClientEvent.roomState ∉ evs →
        ∀ r n t, ClientAction.sendJoinRoom r n t
          ∉ clientActions roomCode name token s evs) := by
  refine ⟨fun h => ?_, ⟨rfl, rfl, rfl⟩, fun evs => ?_⟩
  · simp [clientStep, h]
  · induction evs generalizing s with
    | nil => intro _ _ r n t; simp [clientActions]
    | cons e evs ih =>
        intro hflag hmem r n t
        rw [List.mem_cons, not_or] at hmem
        have hstep : (clientStep roomCode name token s e).1.rejoin = false
            ∧ ∀ r' n' t', ClientAction.sendJoinRoom r' n' t'
              ∉ (clientStep roomCode name token s e).2 := by
          cases e with
          | roomState => exact absurd rfl hmem.1
          | wsClose =>
              refine ⟨hflag, fun r' n' t' => ?_⟩
              simp [clientStep, hflag]
          | kicked => exact ⟨rfl, fun r' n' t' => by simp [clientStep]⟩
          | leftRoom => exact ⟨rfl, fun r' n' t' => by simp [clientStep]⟩
          | invalidRoomId => exact ⟨rfl, fun r' n' t' => by simp [clientStep]⟩
          | destroy => exact ⟨rfl, fun r' n' t' => by simp [clientStep]⟩
        rw [clientActions, List.mem_append, not_or]
        exact ⟨hstep.2 r n t, ih _ hstep.1 hmem.2 r n t⟩

/-- Witness for C7 (amended): with the rejoin flag set, a close emits a
new socket and the identical `JoinRoom`. -/
theorem client_rejoin_spec_witness :
    (clientStep "room" "alice" "tok" { rejoin := true } ClientEvent.wsClose).2
      = [ClientAction.newSocket, ClientAction.sendJoinRoom "room" "alice" "tok"] :=
  (client_rejoin_spec "room" "alice" "tok" { rejoin := true }).1 rfl

/-- Every card in the output of the reactive filter is on the table and
not disabled. -/
theorem mem_normalizeVotes (d dis : List String) (n : Nat) (sv : List String)
    (c : String) (h : c ∈ normalizeVotes d dis n sv) :
    c ∈ d ∧ dis.contains c = false := by
  unfold normalizeVotes at h
  dsimp only at h
  have hf : c ∈ sv.filter fun card =>
      (d.filter fun image => !dis.contains image).contains card := by
    by_cases hlen : (sv.filter fun card =>
        (d.filter fun image => !dis.contains image).contains card).length > n
    · rw [if_pos hlen] at h
      exact List.mem_of_mem_drop h
    · rw [if_neg hlen] at h
      exact h
  have h1 := List.mem_filter.mp hf
  have hmem : c ∈ d.filter fun image => !dis.contains image := by
    simpa using h1.2
  have h2 := List.mem_filter.mp hmem
  exact ⟨h2.1, by simpa using h2.2⟩

/-- The reactive length clamp bounds the selection by the effective
votes-per-guesser. -/
theorem length_normalizeVotes (d dis : List String) (n : Nat) (sv : List String) :
    (normalizeVotes d dis n sv).length ≤ n := by
  unfold normalizeVotes
  dsimp only
  split
  next hlen => rw [List.length_drop]; omega
  next hlen => omega

/-- The reactive statements never add occurrences of a card. -/
theorem count_normalizeVotes_le (d dis : List String) (n : Nat) (sv : List String)
    (c : String) : (normalizeVotes d dis n sv).count c ≤ sv.count c := by
  unfold normalizeVotes
  dsimp only
  split
  · exact le_trans ((List.drop_sublist _ _).count_le c)
      ((List.filter_sublist _).count_le c)
  · exact (List.filter_sublist _).count_le c

/-- Function `cycleCardVote` keeps every card's multiplicity at most two. -/
theorem count_cycleCardVote_le_two (isVoter : Bool) (dis : List String)
    (evpg : Nat) (sv : List String) (card : String)
    (h : ∀ x, sv.count x ≤ 2) :
    ∀ x, (cycleCardVote isVoter dis evpg sv card).count x ≤ 2 := by
  intro x
  unfold cycleCardVote
  by_cases hguard : (!isVoter || dis.contains card) = true
  · rw [if_pos hguard]; exact h x
  · rw [if_neg hguard]
    dsimp only
    by_cases h2 : sv.count card ≥ 2
    · rw [if_pos h2]
      exact le_trans ((List.filter_sublist _).count_le x) (h x)
    · rw [if_neg h2]
      by_cases h1 : sv.count card = 1 ∧ evpg = 1
      · rw [if_pos h1]
        exact le_trans ((List.filter_sublist _).count_le x) (h x)
      · rw [if_neg h1]
        refine le_trans ((List.drop_sublist _ _).count_le x) ?_
        rw [List.count_append]
        by_cases hx : x = card
        · subst hx
          have h3 : List.count x [x] = 1 := by simp
          omega
        · have h3 : List.count x [card] = 0 := List.count_eq_zero.mpr (by simp [hx])
          have h4 := h x
          omega

/-- The reactive statements applied to any state yield a selection that
is on the table, avoids disabled cards and fits the vote budget. -/
theorem applyReactive_normalized (t : VotingState) :
    (∀ c ∈ (applyReactive t).selectedVotes,
      c ∈ (applyReactive t).displayImages
        ∧ (applyReactive t).disabledCards.contains c = false)
    ∧ (applyReactive t).selectedVotes.length ≤ (applyReactive t).evpg := by
  constructor
  · intro c hc
    exact mem_normalizeVotes t.displayImages t.disabledCards t.evpg t.selectedVotes c hc
  · exact length_normalizeVotes t.displayImages t.disabledCards t.evpg t.selectedVotes

/-- The reactive statements never add occurrences of a card. -/
theorem applyReactive_count_le (t : VotingState) (x : String) :
    (applyReactive t).selectedVotes.count x ≤ t.selectedVotes.count x :=
  count_normalizeVotes_le t.displayImages t.disabledCards t.evpg t.selectedVotes x

/-- Multiplicities stay at most two across any component step. -/
theorem count_votingStep_le_two (s : VotingState) (e : VotingEvent)
    (h : ∀ x, s.selectedVotes.count x ≤ 2) :
    ∀ x, (votingStep s e).selectedVotes.count x ≤ 2 := by
  intro x
  cases e with
  | click card =>
      exact le_trans (applyReactive_count_le _ x)
        (count_cycleCardVote_le_two _ _ _ _ _ h x)
  | setProps d dis v vm iv =>
      exact le_trans (applyReactive_count_le _ x) (h x)

/-- Every component step ends with the reactive statements, so the
resulting selection avoids disabled cards, stays on the table and fits
the vote budget. -/
theorem votingStep_normalized (s : VotingState) (e : VotingEvent) :
    (∀ c ∈ (votingStep s e).selectedVotes,
      c ∈ (votingStep s e).displayImages
        ∧ (votingStep s e).disabledCards.contains c = false)
    ∧ (votingStep s e).selectedVotes.length ≤ (votingStep s e).evpg := by
  cases e with
  | click card => exact applyReactive_normalized _
  | setProps d dis v vm iv => exact applyReactive_normalized _

/-- The initial state is likewise normalized. -/
theorem votingInit_normalized (d dis : List String) (v vm : Int) (iv : Bool) :
    (∀ c ∈ (votingInit d dis v vm iv).selectedVotes,
      c ∈ (votingInit d dis v vm iv).displayImages
        ∧ (votingInit d dis v vm iv).disabledCards.contains c = false)
    ∧ (votingInit d dis v vm iv).selectedVotes.length
        ≤ (votingInit d dis v vm iv).evpg :=
  applyReactive_normalized _

/-- Normalization and the two-token bound hold of every reachable
component state. -/
theorem votingRun_invariant (s : VotingState) (evs : List VotingEvent)
    (hmem : ∀ c ∈ s.selectedVotes,
      c ∈ s.displayImages ∧ s.disabledCards.contains c = false)
    (hlen : s.selectedVotes.length ≤ s.evpg)
    (hcnt : ∀ x, s.selectedVotes.count x ≤ 2) :
    (∀ c ∈ (votingRun s evs).selectedVotes,
      c ∈ (votingRun s evs).displayImages
        ∧ (votingRun s evs).disabledCards.contains c = false)
    ∧ (votingRun s evs).selectedVotes.length ≤ (votingRun s evs).evpg
    ∧ (∀ x, (votingRun s evs).selectedVotes.count x ≤ 2) := by
  induction evs generalizing s with
  | nil => exact ⟨hmem, hlen, hcnt⟩
  | cons e evs ih =>
      have hrun : votingRun s (e :: evs) = votingRun (votingStep s e) evs := by
        simp [votingRun]
      rw [hrun]
      exact ih (votingStep s e) (votingStep_normalized s e).1
        (votingStep_normalized s e).2 (count_votingStep_le_two s e hcnt)

/-- The initial selection is empty, so it has no duplicate tokens. -/
theorem votingInit_count (d dis : List String) (v vm : Int) (iv : Bool) :
    ∀ x, (votingInit d dis v vm iv).selectedVotes.count x ≤ 2 := by
  intro x
  refine le_trans (applyReactive_count_le _ x) ?_
  simp

/-- The effective votes-per-guesser agrees with the configured value
when that value sits inside the advertised range. -/
theorem effectiveVotesPerGuesser_eq (v vm : Int) (h1 : 1 ≤ v) (h2 : v ≤ vm) :
    effectiveVotesPerGuesser v vm = v := by
  unfold effectiveVotesPerGuesser
  rw [max_eq_left (by omega : (1 : Int) ≤ vm), min_eq_left h2, max_eq_right h1]

/-- A successful submission hands over exactly the current selection. -/
theorem submitVotes_eq_some (s : VotingState) (cards : List String)
    (h : submitVotes s = some cards) :
    cards = s.selectedVotes
      ∧ (s.selectedVotes.length : Int)
        = effectiveVotesPerGuesser s.votesPerGuesser s.votesPerGuesserMax := by
  unfold submitVotes at h
  by_cases hc : canSubmit s = true
  · rw [if_pos hc] at h
    injection h with h
    subst h
    unfold canSubmit at hc
    simp only [Bool.and_eq_true, decide_eq_true_iff] at hc
    exact ⟨rfl, hc.2⟩
  · rw [if_neg hc] at h
    exact absurd h (by simp)

/-- C4: in every reachable Voting-component state the selected-votes
list contains no disabled card (the reactive filter removes any), the
click handler refuses disabled cards, and a submission never contains a
card from the voter's disabled set. -/
theorem voting_no_disabled_votes (d dis : List String) (v vm : Int) (iv : Bool)
    (evs : List VotingEvent) :
    (∀ c ∈ (votingRun (votingInit d dis v vm iv) evs).selectedVotes,
      (votingRun (votingInit d dis v vm iv) evs).disabledCards.contains c = false)
    ∧ (∀ card, (votingRun (votingInit d dis v vm iv) evs).disabledCards.contains card
          = true →
        cycleCardVote (votingRun (votingInit d dis v vm iv) evs).isVoter
            (votingRun (votingInit d dis v vm iv) evs).disabledCards
            (votingRun (votingInit d dis v vm iv) evs).evpg
            (votingRun (votingInit d dis v vm iv) evs).selectedVotes card
          = (votingRun (votingInit d dis v vm iv) evs).selectedVotes)
    ∧ (∀ cards, submitVotes (votingRun (votingInit d dis v vm iv) evs) = some cards →
        ∀ c ∈ cards,
          (votingRun (votingInit d dis v vm iv) evs).disabledCards.contains c
            = false) := by
  have hinv := votingRun_invariant (votingInit d dis v vm iv) evs
    (votingInit_normalized d dis v vm iv).1 (votingInit_normalized d dis v vm iv).2
    (votingInit_count d dis v vm iv)
  refine ⟨fun c hc => (hinv.1 c hc).2, fun card hcard => ?_, fun cards hsub c hc => ?_⟩
  · have hcond : (!(votingRun (votingInit d dis v vm iv) evs).isVoter
        || (votingRun (votingInit d dis v vm iv) evs).disabledCards.contains card)
          = true := by
      rw [hcard, Bool.or_true]
    unfold cycleCardVote
    rw [if_pos hcond]
  · have := (submitVotes_eq_some _ cards hsub).1
    subst this
    exact (hinv.1 c hc).2

/-- Witness for C4: with card `a` disabled, clicking `a` leaves the
empty selection unchanged. -/
theorem voting_no_disabled_votes_witness :
    cycleCardVote (votingRun (votingInit ["a", "b"] ["a"] 1 1 true) []).isVoter
        (votingRun (votingInit ["a", "b"] ["a"] 1 1 true) []).disabledCards
        (votingRun (votingInit ["a", "b"] ["a"] 1 1 true) []).evpg
        (votingRun (votingInit ["a", "b"] ["a"] 1 1 true) []).selectedVotes "a"
      = (votingRun (votingInit ["a", "b"] ["a"] 1 1 true) []).selectedVotes :=
  (voting_no_disabled_votes ["a", "b"] ["a"] 1 1 true []).2.1 "a" (by decide)

/-- C2: a `SubmitVotes` command carries a list of length exactly
`votes_per_guesser` (given the configured value lies in the advertised
range) — any other length is blocked — every element of the list is a
card on the table, and duplicates are allowed: stacking two tokens on
one card submits that card twice, each element one vote token. -/
theorem voting_submit_spec (d dis : List String) (v vm : Int) (iv : Bool)
    (evs : List VotingEvent) (cards : List String) :
    (1 ≤ (votingRun (votingInit d dis v vm iv) evs).votesPerGuesser →
      (votingRun (votingInit d dis v vm iv) evs).votesPerGuesser
          ≤ (votingRun (votingInit d dis v vm iv) evs).votesPerGuesserMax →
      submitVotes (votingRun (votingInit d dis v vm iv) evs) = some cards →
      (cards.length : Int) = (votingRun (votingInit d dis v vm iv) evs).votesPerGuesser
        ∧ ∀ c ∈ cards, c ∈ (votingRun (votingInit d dis v vm iv) evs).displayImages)
    ∧ (submitVotes (votingRun (votingInit ["x", "y"] [] 2 2 true)
          [VotingEvent.click "x", VotingEvent.click "x"]) = some ["x", "x"]
        ∧ (["x", "x"] : List String).count "x" = 2) := by
  have hinv := votingRun_invariant (votingInit d dis v vm iv) evs
    (votingInit_normalized d dis v vm iv).1 (votingInit_normalized d dis v vm iv).2
    (votingInit_count d dis v vm iv)
  refine ⟨fun h1 h2 hsub => ?_, by decide, by decide⟩
  obtain ⟨hcards, hlen⟩ := submitVotes_eq_some _ cards hsub
  subst hcards
  rw [effectiveVotesPerGuesser_eq _ _ h1 h2] at hlen
  exact ⟨hlen, fun c hc => (hinv.1 c hc).1⟩

/-- Witness for C2: a stacked double vote on `x` with two vote tokens
submits `[x, x]`, length two, both on the table. -/
theorem voting_submit_spec_witness :
    ((["x", "x"] : List String).length : Int)
        = (votingRun (votingInit ["x", "y"] [] 2 2 true)
            [VotingEvent.click "x", VotingEvent.click "x"]).votesPerGuesser
      ∧ ∀ c ∈ (["x", "x"] : List String),
          c ∈ (votingRun (votingInit ["x", "y"] [] 2 2 true)
            [VotingEvent.click "x", VotingEvent.click "x"]).displayImages :=
  (voting_submit_spec ["x", "y"] [] 2 2 true
      [VotingEvent.click "x", VotingEvent.click "x"] ["x", "x"]).1
    (by decide) (by decide) (by decide)

/-- C9: in every reachable Voting-component state each card appears at
most twice in the selected-votes list and the list never exceeds the
effective votes-per-guesser; clicking cycles a card's token count
0 → 1 → 2 → 0 (with the oldest token evicted when the budget
overflows), as the closing concrete run shows. -/
theorem voting_selection_bounds (d dis : List String) (v vm : Int) (iv : Bool)
    (evs : List VotingEvent) :
    ((∀ card, (votingRun (votingInit d dis v vm iv) evs).selectedVotes.count card ≤ 2)
      ∧ (votingRun (votingInit d dis v vm iv) evs).selectedVotes.length
          ≤ (votingRun (votingInit d dis v vm iv) evs).evpg)
    ∧ ((votingRun (votingInit ["x", "y", "z"] [] 2 2 true)
          [VotingEvent.click "x"]).selectedVotes.count "x" = 1
      ∧ (votingRun (votingInit ["x", "y", "z"] [] 2 2 true)
          [VotingEvent.click "x", VotingEvent.click "x"]).selectedVotes.count "x" = 2
      ∧ (votingRun (votingInit ["x", "y", "z"] [] 2 2 true)
          [VotingEvent.click "x", VotingEvent.click "x",
            VotingEvent.click "x"]).selectedVotes.count "x" = 0) := by
  have hinv := votingRun_invariant (votingInit d dis v vm iv) evs
    (votingInit_normalized d dis v vm iv).1 (votingInit_normalized d dis v vm iv).2
    (votingInit_count d dis v vm iv)
  exact ⟨⟨hinv.2.2, hinv.2.1⟩, by decide, by decide, by decide⟩

end Talespin